import Mathlib

/-!
Shallow embedding of the Go GitHub API v3 client library (package `github`,
sources `travis-deps.go`, `github.go`, `issues.go`, …).  Pure string
manipulation, map validation and response-branch logic are translated into
Lean definitions; HTTP transport is represented by making the decision
"which request (if any) is issued" and "how a received response is handled"
explicit as data.

Two granularities of string are used:
* `String` (Lean strings) for the map validators, trimming, response
  branching and JSON-body templates, where the code treats strings as
  opaque tokens or concatenates them;
* `List Nat` byte strings for `url.QueryEscape`, `UrlDataConvert` and
  `createUrl`, where the code operates on the byte level (percent
  encoding).
-/

namespace GithubClient

/-- Go `unicode.IsSpace` from the standard library, used by
`strings.TrimSpace`: the Unicode White_Space code points. -/
def goIsSpace (c : Char) : Bool :=
  c == ' ' || c == '\t' || c == '\n' || c.toNat == 11 || c.toNat == 12 ||
  c == '\r' || c.toNat == 0x85 || c.toNat == 0xA0 || c.toNat == 0x1680 ||
  (0x2000 ≤ c.toNat && c.toNat ≤ 0x200A) || c.toNat == 0x2028 ||
  c.toNat == 0x2029 || c.toNat == 0x202F || c.toNat == 0x205F ||
  c.toNat == 0x3000

/-- Go `strings.TrimSpace`: remove leading and trailing white space. -/
def goTrimSpace (s : String) : String :=
  ⟨((s.data.dropWhile goIsSpace).reverse.dropWhile goIsSpace).reverse⟩

/-- A Go `map[string]string`, modelled as an association list where the
first binding of a key is its value (updates prepend). -/
def GoMap := List (String × String)

/-- Go map indexing `m[key]`: the bound value, or the zero value `""`
when the key is absent. -/
def mapGet (m : GoMap) (key : String) : String :=
  (List.lookup key m).getD ""

/-- Go `_, ok := m[key]`: whether the key is present. -/
def mapHas (m : GoMap) (key : String) : Bool :=
  (List.lookup key m).isSome

/-- Go map update `m[key] = v`, as a prepended binding. -/
def mapSet (m : GoMap) (key val : String) : GoMap :=
  (key, val) :: m

/-- Method `GitHubClient.AssertMapString` (github.go): true when `key` is present
in `m` with a value whose trimmed form is non-empty. -/
def assertMapString (key : String) (m : GoMap) : Bool :=
  mapHas m key && (goTrimSpace (mapGet m key)).length != 0

/-- Method `GitHubClient.AssertMapStrings` (github.go), translated literally:
for each key the loop body is
`if val, ok := m[key]; !ok && strings.TrimSpace(val) != "" { return false }`. -/
def assertMapStrings (s : List String) (m : GoMap) : Bool :=
  match s with
  | [] => true
  | key :: rest =>
    if !(mapHas m key) && goTrimSpace (mapGet m key) != "" then false
    else assertMapStrings rest m

/-- The `GitHubClient` configuration holder (github.go); the
`*http.Client` transport handle is not part of the pure state. -/
structure GitHubClient where
  type : String
  token : String
  login : String
  callsLimit : Int
  callsRemaining : Int

/-- Constructor `NewGitHubClient` (github.go). -/
def NewGitHubClient (token login : String) : GitHubClient :=
  { type := "oauth"
    token := token
    login := login
    callsLimit := 5000
    callsRemaining := 5000 }

/-- Go `strconv.ParseInt(s, 10, 0)` restricted to what the call sites
need: an optional sign followed by at least one decimal digit, rejecting
anything else (in particular the empty string returned by `Header.Get`
for an absent header), with the 64-bit `int` range check (out of range
is an error at these call sites since only `err != nil` is inspected). -/
def goParseInt (s : String) : Option Int :=
  let signed : Bool × List Char :=
    match s.data with
    | '-' :: rest => (true, rest)
    | '+' :: rest => (false, rest)
    | l => (false, l)
  let digits := signed.2
  if digits.isEmpty then none
  else if digits.all (fun c => c.isDigit) then
    let n : Nat := digits.foldl (fun acc c => 10 * acc + (c.toNat - 48)) 0
    if signed.1 then
      if n ≤ 2 ^ 63 then some (-(n : Int)) else none
    else
      if n < 2 ^ 63 then some (n : Int) else none
  else none

/-- The rate-limit part of the client state mutated by `getLimits`. -/
structure Limits where
  callsLimit : Int
  callsRemaining : Int
deriving DecidableEq, Repr

/-- Method `GitHubClient.getLimits` (github.go): parse `X-RateLimit-Remaining`
and then `X-RateLimit-Limit`, returning without any update if either
parse fails, and otherwise storing both.  The two arguments are the
values of `res.Header.Get` for the two headers (`""` when absent). -/
def getLimits (st : Limits) (remainingHeader limitHeader : String) : Limits :=
  match goParseInt remainingHeader with
  | none => st
  | some remain =>
    match goParseInt limitHeader with
    | none => st
    | some limit => { callsLimit := limit, callsRemaining := remain }

/-! ### Byte-level embedding of the percent-encoding plumbing

Go strings are byte sequences; `url.QueryEscape`, `UrlDataConvert` and
`createUrl` operate on bytes, so here strings are `List Nat` with each
element `< 256`.  `strings.TrimSpace` is modelled on its ASCII white
space set (multi-byte Unicode white space is outside the byte model). -/

/-- A Go string viewed as its bytes. -/
abbrev Str : Type := List Nat

/-- Bytes of an ASCII string literal (all our literals are ASCII, where
UTF-8 bytes and code points coincide). -/
def bytes (s : String) : Str :=
  s.data.map Char.toNat

/-- All bytes of the string are in range. -/
def byteOk (s : Str) : Prop :=
  ∀ b ∈ s, b < 256

instance : DecidablePred byteOk := fun s =>
  inferInstanceAs (Decidable (∀ b ∈ s, b < 256))

/-- ASCII white space bytes trimmed by `strings.TrimSpace`. -/
def isAsciiSpace (b : Nat) : Bool :=
  b == 9 || b == 10 || b == 11 || b == 12 || b == 13 || b == 32

/-- Go `strings.TrimSpace` on the byte level. -/
def trimB (s : Str) : Str :=
  ((List.dropWhile isAsciiSpace s).reverse.dropWhile isAsciiSpace).reverse

/-- The bytes `url.QueryEscape` leaves unescaped: ASCII alphanumerics
and `-`, `.`, `_`, `~`. -/
def isUnreserved (b : Nat) : Bool :=
  (65 ≤ b && b ≤ 90) || (97 ≤ b && b ≤ 122) || (48 ≤ b && b ≤ 57) ||
  b == 45 || b == 46 || b == 95 || b == 126

/-- Upper-case hexadecimal digit character code for a value `< 16`
(Go's `"0123456789ABCDEF"` table). -/
def hexDigitU (n : Nat) : Nat :=
  if n < 10 then 48 + n else 55 + n

/-- How `url.QueryEscape` renders one byte: space becomes `+`,
unreserved bytes pass through, everything else becomes `%XX`. -/
def escapeByte (b : Nat) : List Nat :=
  if b == 32 then [43]
  else if isUnreserved b then [b]
  else [37, hexDigitU (b / 16), hexDigitU (b % 16)]

/-- Go `url.QueryEscape` (net/url): escape every byte. -/
def queryEscape (s : Str) : Str :=
  (List.map escapeByte s).flatten

/-- Constant `APIURL = "https://api.github.com"` (github.go), as bytes. -/
def apiUrlBytes : Str :=
  bytes "https://api.github.com"

/-- Method `GitHubClient.createUrl` (github.go): append the percent-encoded
token as `access_token`, with `?` when the path carries no query string
(`strings.Index(path, "?") == -1`) and `&` otherwise. -/
def createUrl (token path : Str) : Str :=
  if List.contains path 63 then
    apiUrlBytes ++ path ++ bytes "&access_token=" ++ queryEscape token
  else
    apiUrlBytes ++ path ++ bytes "?access_token=" ++ queryEscape token

/-- The encoding of one `key=value` pair by `UrlDataConvert`:
both sides trimmed and percent-encoded, joined by `=` (byte 61). -/
def encPair (p : Str × Str) : Str :=
  queryEscape (trimB p.1) ++ 61 :: queryEscape (trimB p.2)

/-- The loop of `GitHubClient.UrlDataConvert` (github.go): the first
pair is appended bare, every later pair behind a `&` (byte 38). -/
def urlDataConvertAux (acc : Str) (l : List (Str × Str)) : Str :=
  match l with
  | [] => acc
  | p :: rest =>
    if List.length acc == 0 then urlDataConvertAux (acc ++ encPair p) rest
    else urlDataConvertAux (acc ++ 38 :: encPair p) rest

/-- Method `GitHubClient.UrlDataConvert` (github.go).  Go map iteration order is
unspecified, so the input is a list of pairs in an arbitrary order. -/
def urlDataConvert (l : List (Str × Str)) : Str :=
  urlDataConvertAux [] l

/-- The `&`-prefixed tail produced by the `UrlDataConvert` loop for
every pair after the first. -/
def encTail : List (Str × Str) → Str
  | [] => []
  | p :: r => 38 :: encPair p ++ encTail r

/-! ### A standard query-string parser (the spec's reference decoder)

Modelled from the spec: "decoding the produced query string with a
standard query-string parser" — split the string on `&`, split each
field at its first `=`, and percent-decode both halves, `+` decoding to
a space. -/

/-- Value of a hexadecimal digit character code. -/
def hexVal (c : Nat) : Option Nat :=
  if 48 ≤ c ∧ c ≤ 57 then some (c - 48)
  else if 65 ≤ c ∧ c ≤ 70 then some (c - 55)
  else if 97 ≤ c ∧ c ≤ 102 then some (c - 87)
  else none

/-- Modelled from the spec: standard percent-decoding of a query
component, `+` meaning space, failing on a malformed `%` escape. -/
def queryUnescape : Str → Option Str
  | [] => some []
  | b :: rest =>
    if b = 43 then (queryUnescape rest).map (fun t => 32 :: t)
    else if b = 37 then
      match rest with
      | c1 :: c2 :: rest2 =>
        match hexVal c1, hexVal c2 with
        | some h1, some h2 => (queryUnescape rest2).map (fun t => (16 * h1 + h2) :: t)
        | _, _ => none
      | _ => none
    else (queryUnescape rest).map (fun t => b :: t)

/-- Modelled from the spec: split a query string on `&` (byte 38). -/
def splitAmp : Str → List Str
  | [] => [[]]
  | b :: rest =>
    if b = 38 then [] :: splitAmp rest
    else
      match splitAmp rest with
      | [] => [[b]]
      | x :: xs => (b :: x) :: xs

/-- Modelled from the spec: parse one `key=value` field, splitting at
the first `=` (byte 61) and percent-decoding both halves.  The head of
the dropped part, when it exists, is the `=` byte itself. -/
def parsePair (p : Str) : Option (Str × Str) :=
  let k := p.takeWhile (fun c => c != 61)
  match p.dropWhile (fun c => c != 61) with
  | [] => none
  | _eq :: v =>
    match queryUnescape k, queryUnescape v with
    | some k2, some v2 => some (k2, v2)
    | _, _ => none

/-- Run a parser over every element, failing if any element fails. -/
def parseAll (f : Str → Option (Str × Str)) : List Str → Option (List (Str × Str))
  | [] => some []
  | x :: xs =>
    match f x, parseAll f xs with
    | some y, some ys => some (y :: ys)
    | _, _ => none

/-- Modelled from the spec: a standard query-string parser — the empty
string holds no pairs, otherwise each `&`-separated field is a
percent-encoded `key=value` pair. -/
def decodeQuery (s : Str) : Option (List (Str × Str)) :=
  if s = [] then some [] else parseAll parsePair (splitAmp s)

/-! ### Endpoint methods

Each endpoint first validates its maps, then builds a path and issues an
HTTP request.  The pre-network phase is embedded as a function into
`Prepared`: either the method fails fast with a validation error, or it
reaches the unconditional transport call with a concrete path (which
`createUrl` then completes with the token). -/

/-- Outcome of an endpoint method's pre-network phase: a fail-fast
validation error, or the path of the HTTP request that is then issued. -/
inductive Prepared where
  | invalid (msg : String)
  | request (path : String)
deriving DecidableEq, Repr

/-- Method `GitHubClient.GetIssue` (issues file) up to the `Client.Get` call:
validate `repo` and `number` via `AssertMapStrings`, default `owner`
to the client's login, and build `/repos/:owner/:repo/issues/:number`. -/
def getIssuePrepare (login : String) (urlData : GoMap) : Prepared :=
  if !(assertMapStrings ["repo", "number"] urlData) then
    .invalid "The urlData[\"repo\"] value and/or urlData[\"number\"] value is either empty or doesn't contain any non-whitespace content"
  else
    let urlData2 := if !(assertMapString "owner" urlData) then mapSet urlData "owner" login else urlData
    .request ("/repos/" ++ mapGet urlData2 "owner" ++ "/" ++ mapGet urlData2 "repo" ++
      "/issues/" ++ mapGet urlData2 "number")

/-- Method `GitHubClient.ListIssueComments` (issues file) up to the
`Client.Get` call.  The owner segment of the path is interpolated from
`urlData[""]` — the empty-string key — exactly as in the source. -/
def listIssueCommentsPrepare (login : String) (urlData : GoMap) : Prepared :=
  if !(assertMapStrings ["repo", "number"] urlData) then
    .invalid "The urlData[\"repo\"] value and/org urlData[\"number\"] value is either empty or doesn't contain any non-whitespace content"
  else
    let urlData2 := if !(assertMapString "owner" urlData) then mapSet urlData "owner" login else urlData
    .request ("/repos/" ++ mapGet urlData2 "" ++ "/" ++ mapGet urlData2 "repo" ++
      "/issues/" ++ mapGet urlData2 "number" ++ "/comments")

/-! ### Response-branch logic

A received HTTP response is represented by its status code, its status
line (`res.Status`, e.g. `"404 Not Found"`) and its body. -/

/-- Method `GitHubClient.CheckAssignees` (issues file), the branch on the
received response: 204 is true, 404 is false, anything else errors with
the status line. -/
def checkAssigneesRespond (status : Nat) (statusLine : String) : Bool × Option String :=
  if status = 204 then (true, none)
  else if status = 404 then (false, none)
  else (false, some ("Didn't receive 204/404 status from Github: " ++ statusLine))

/-- Method `GitHubClient.IsCollab` (travis-deps.go), the branch on the received
response. -/
def isCollabRespond (status : Nat) (statusLine : String) : Bool × Option String :=
  if status = 204 then (true, none)
  else if status = 404 then (false, none)
  else (false, some ("Didn't receive 204 or 404 status from Github: " ++ statusLine))

/-- Method `GitHubClient.HasPullMerged` (gitdata file), the branch on the
received response — an existence check (204 means the pull request is
merged, 404 means it is not) whose 204 branch reads the body and calls
`json.Unmarshal(filesJson, files)` on the non-pointer slice value
`files : []CommitFile`.  Go's `Unmarshal` first runs `checkValid` on the
data and only then inspects the target, so the branch fails for every
body: with the syntax error when the body is not valid JSON (a real 204
body is empty), and with the `InvalidUnmarshalError` otherwise — the
`return true, nil` below the unmarshal is unreachable.  The function is
parametrized by the `checkValid` oracle: `some errText` when the body is
not valid JSON, `none` when it is. -/
def hasPullMergedRespond (checkValid : String → Option String)
    (status : Nat) (statusLine body : String) : Bool × Option String :=
  if status = 204 then
    match checkValid body with
    | some syntaxErr => (false, some syntaxErr)
    | none => (false, some "json: Unmarshal(non-pointer []github.CommitFile)")
  else if status = 404 then (false, none)
  else (false, some ("Didn't receive 204/404 status from Github: " ++ statusLine))

/-- The error text of Go's `encoding/json` `InvalidUnmarshalError` for
`json.Unmarshal(data, msg)` where `msg` is a `Message` struct value, not
a pointer: `Unmarshal` inspects `reflect.ValueOf(v)` and, whatever the
data, returns this error whenever the target is not a non-nil pointer. -/
def nonPointerUnmarshalError : String :=
  "json: Unmarshal(non-pointer github.Message)"

/-- Method `GitHubClient.Merge` (travis-deps.go), the branch on the received
response, generic in the commit payload type and its JSON decoder:
* 201 decodes the body into a `Commit` (a pointer target, so decoding
  works) and returns it;
* 204 returns neither a commit nor an error;
* 409 and 404 read the body and call `json.Unmarshal(msgJson, msg)` on
  the non-pointer `Message` value `msg`, which always fails, so the
  function returns that unmarshal error — `msg.Message` is never reached;
* anything else errors with the status line. -/
def mergeRespond {α : Type} (decodeCommit : String → Except String α)
    (status : Nat) (statusLine body : String) : Option α × Option String :=
  if status = 201 then
    match decodeCommit body with
    | .ok c => (some c, none)
    | .error e => (none, some e)
  else if status = 204 then (none, none)
  else if status = 409 ∨ status = 404 then (none, some nonPointerUnmarshalError)
  else (none, some ("Didn't receive 201 status from Github: " ++ statusLine))

/-! ### Hand-built JSON request bodies -/

/-- Method `GitHubClient.CreateIssueComment` (issues file), the request body:
the comment is trimmed, rejected if blank, and otherwise spliced
verbatim into the template `\x7b "body": "..." \x7d`. -/
def createIssueCommentBody (commentBody : String) : Option String :=
  let b := goTrimSpace commentBody
  if b.length = 0 then none
  else some ("\x7b \"body\": \"" ++ b ++ "\" \x7d")

/-- Method `GitHubClient.CreateRepoKey` (travis-deps.go), the request body:
`key["key"]` and `key["title"]` spliced verbatim into the template
`\x7b "key": "...", "title": "..." \x7d`. -/
def createRepoKeyBody (key : GoMap) : String :=
  "\x7b \"key\": \"" ++ mapGet key "key" ++ "\", \"title\": \"" ++ mapGet key "title" ++ "\" \x7d"

/-- A string that needs no escaping inside a JSON string literal: no
quote, no backslash, no control character. -/
def jsonPlain (s : String) : Bool :=
  s.data.all (fun c => c != '"' && c != '\\' && 32 ≤ c.toNat)

/-- Modelled from the spec (JSON grammar): the serialization of a JSON
object of string fields, in the whitespace style of the source's
templates.  When every key and value is `jsonPlain`, this is valid JSON
denoting exactly these fields. -/
def jsonObject (fields : List (String × String)) : String :=
  "\x7b " ++ String.intercalate ", "
    (fields.map (fun p => "\"" ++ p.1 ++ "\": \"" ++ p.2 ++ "\"")) ++ " \x7d"

/-! ### Helper lemmas -/

lemma goTrimSpace_empty : goTrimSpace "" = "" := rfl

/-- The loop condition of `AssertMapStrings` can never hold: when the key
is absent, the zero value `""` trims to `""`. -/
lemma assertMapStrings_true (keys : List String) (m : GoMap) :
    assertMapStrings keys m = true := by
  induction keys with
  | nil => rfl
  | cons key rest ih =>
    rcases h : List.lookup key m with _ | v
    · simp [assertMapStrings, mapHas, mapGet, h, goTrimSpace_empty, ih]
    · simp [assertMapStrings, mapHas, h, ih]

lemma string_length_ne_zero (s : String) : s.length ≠ 0 ↔ s ≠ "" := by
  cases s with
  | mk data => simp [String.length, String.ext_iff]

/-- Characterization of the single-key validator. -/
lemma assertMapString_iff (key : String) (m : GoMap) :
    assertMapString key m = true ↔
      ∃ v, List.lookup key m = some v ∧ goTrimSpace v ≠ "" := by
  rcases h : List.lookup key m with _ | v
  · simp [assertMapString, mapHas, mapGet, h]
  · simp only [assertMapString, mapHas, mapGet, h, Option.isSome_some, Option.getD_some,
      Bool.true_and, bne_iff_ne, ne_eq, Option.some.injEq]
    constructor
    · intro hlen
      exact ⟨v, rfl, ((string_length_ne_zero _).mp hlen)⟩
    · rintro ⟨w, rfl, hw⟩
      exact (string_length_ne_zero _).mpr hw

/-! ### Theorems for the claims -/

/-- Claim C1: the multi-key validator `AssertMapStrings` is claimed to be
true iff every listed key has a value with non-whitespace content, and
`AssertMapString` true iff the map has the key with a non-blank value.
The single-key validator satisfies its half, but `AssertMapStrings`
returns `true` on every input — in particular on the empty map, which
lacks `"repo"` — because its loop condition
`!ok && strings.TrimSpace(val) != ""` can never hold (`val` is the zero
value `""` whenever `ok` is false). -/
theorem C1_validators :
    assertMapStrings ["repo"] [] = true ∧
    (∀ (keys : List String) (m : GoMap), assertMapStrings keys m = true) ∧
    (∀ (key : String) (m : GoMap), assertMapString key m = true ↔
      ∃ v, List.lookup key m = some v ∧ goTrimSpace v ≠ "") :=
  ⟨assertMapStrings_true _ _, assertMapStrings_true, assertMapString_iff⟩

/-- Claim C3: an endpoint method whose required field is missing is
claimed to fail fast with a validation error and no network call.  For
`GetIssue` with an empty `urlData` (missing `repo` and `number`) the
validation gate never fires — `AssertMapStrings` returns `true` — so the
method proceeds to build a URL and issue the HTTP request. -/
theorem C3_getIssue_missing_fields_still_requests :
    getIssuePrepare "octocat" [] = .request "/repos/octocat//issues/" := by
  decide

/-- Claim C10: a fresh client starts with `Type` `"oauth"` and both
rate-limit counters at 5000 (which is not zero), for every token and
login. -/
theorem C10_new_client_initial_state (token login : String) :
    (NewGitHubClient token login).type = "oauth" ∧
    (NewGitHubClient token login).callsLimit = 5000 ∧
    (NewGitHubClient token login).callsRemaining = 5000 ∧
    (5000 : Int) ≠ 0 :=
  ⟨rfl, rfl, rfl, by decide⟩

/-- Claim C4: when both rate-limit headers parse, `getLimits` stores
both values; when either is absent (the empty string) or non-numeric,
the counters are left exactly as they were — no partial update. -/
theorem C4_getLimits_update (st : Limits) (remainingHeader limitHeader : String) :
    (∀ r l, goParseInt remainingHeader = some r → goParseInt limitHeader = some l →
      getLimits st remainingHeader limitHeader =
        { callsLimit := l, callsRemaining := r }) ∧
    ((goParseInt remainingHeader = none ∨ goParseInt limitHeader = none) →
      getLimits st remainingHeader limitHeader = st) := by
  constructor
  · intro r l hr hl
    simp [getLimits, hr, hl]
  · rintro (h | h)
    · simp [getLimits, h]
    · rcases hr : goParseInt remainingHeader with _ | r <;> simp [getLimits, hr, h]

/-- Witness for C4 at concrete headers: `"42"`/`"5000"` update both
counters, an absent (empty) header leaves the prior state untouched. -/
theorem C4_getLimits_update_witness :
    getLimits ⟨1, 2⟩ "42" "5000" = ⟨5000, 42⟩ ∧
    getLimits ⟨1, 2⟩ "" "5000" = ⟨1, 2⟩ ∧
    getLimits ⟨1, 2⟩ "42" "x5000" = ⟨1, 2⟩ :=
  ⟨(C4_getLimits_update ⟨1, 2⟩ "42" "5000").1 42 5000 (by decide) (by decide),
   (C4_getLimits_update ⟨1, 2⟩ "" "5000").2 (Or.inl (by decide)),
   (C4_getLimits_update ⟨1, 2⟩ "42" "x5000").2 (Or.inr (by decide))⟩

/-- Claim C6: every boolean existence check is claimed to answer
`(true, nil)` on 204, `(false, nil)` on 404, and otherwise `(false, err)`
with the literal status line in the message.  The two cited checks
`CheckAssignees` and `IsCollab` behave exactly as claimed (first three
conjuncts), but the universal claim fails on the existence check
`HasPullMerged`: its 204 branch unmarshals the body into the non-pointer
slice value `files`, which errors for every body — whatever the
JSON-validity oracle says — so on 204 it returns `(false, err)` and can
never return `(true, nil)`; its 404 and other-status branches do behave
as claimed (last two conjuncts). -/
theorem C6_existence_checks (status : Nat) (statusLine : String) :
    (status = 204 → checkAssigneesRespond status statusLine = (true, none) ∧
      isCollabRespond status statusLine = (true, none)) ∧
    (status = 404 → checkAssigneesRespond status statusLine = (false, none) ∧
      isCollabRespond status statusLine = (false, none)) ∧
    (status ≠ 204 → status ≠ 404 →
      ∃ pa pb, checkAssigneesRespond status statusLine = (false, some (pa ++ statusLine)) ∧
        isCollabRespond status statusLine = (false, some (pb ++ statusLine))) ∧
    (∀ (checkValid : String → Option String) (body : String),
      ∃ e, hasPullMergedRespond checkValid 204 statusLine body = (false, some e)) ∧
    (∀ (checkValid : String → Option String) (body : String),
      hasPullMergedRespond checkValid 404 statusLine body = (false, none)) ∧
    (∀ (checkValid : String → Option String) (body : String), status ≠ 204 → status ≠ 404 →
      ∃ pc, hasPullMergedRespond checkValid status statusLine body =
        (false, some (pc ++ statusLine))) := by
  refine ⟨?_, ?_, ?_, ?_, ?_, ?_⟩
  · rintro rfl
    exact ⟨rfl, rfl⟩
  · rintro rfl
    exact ⟨rfl, rfl⟩
  · intro h204 h404
    refine ⟨"Didn't receive 204/404 status from Github: ",
      "Didn't receive 204 or 404 status from Github: ", ?_, ?_⟩ <;>
      simp [checkAssigneesRespond, isCollabRespond, h204, h404]
  · intro checkValid body
    rcases h : checkValid body with _ | err
    · exact ⟨"json: Unmarshal(non-pointer []github.CommitFile)",
        by simp [hasPullMergedRespond, h]⟩
    · exact ⟨err, by simp [hasPullMergedRespond, h]⟩
  · intro checkValid body
    rfl
  · intro checkValid body h204 h404
    exact ⟨"Didn't receive 204/404 status from Github: ",
      by simp [hasPullMergedRespond, h204, h404]⟩

/-- Witness for C6 at the statuses 204, 404 and 500, with the concrete
JSON-validity oracle for the empty 204 body (not valid JSON, so the Go
syntax error). -/
theorem C6_existence_checks_witness :
    (checkAssigneesRespond 204 "204 No Content" = (true, none) ∧
      isCollabRespond 204 "204 No Content" = (true, none)) ∧
    (checkAssigneesRespond 404 "404 Not Found" = (false, none) ∧
      isCollabRespond 404 "404 Not Found" = (false, none)) ∧
    (∃ pa pb,
      checkAssigneesRespond 500 "500 Internal Server Error" =
        (false, some (pa ++ "500 Internal Server Error")) ∧
      isCollabRespond 500 "500 Internal Server Error" =
        (false, some (pb ++ "500 Internal Server Error"))) ∧
    (∃ e, hasPullMergedRespond
        (fun body => if body = "" then some "unexpected end of JSON input" else none)
        204 "204 No Content" "" = (false, some e)) :=
  ⟨(C6_existence_checks 204 "204 No Content").1 rfl,
   (C6_existence_checks 404 "404 Not Found").2.1 rfl,
   (C6_existence_checks 500 "500 Internal Server Error").2.2.1 (by decide) (by decide),
   (C6_existence_checks 204 "204 No Content").2.2.2.1
     (fun body => if body = "" then some "unexpected end of JSON input" else none) ""⟩

/-- Claim C2: `Merge` is claimed to decode and return the commit on 201,
return `(nil, nil)` on 204, and on 409 with body
`\x7b"message":"Merge conflict"\x7d` return `nil` and an error whose text
equals the server-supplied `"Merge conflict"`.  The first two branches
behave as claimed, but in the 409/404 branch `json.Unmarshal` is called
on the non-pointer `Message` value, so for every body the returned error
is the `InvalidUnmarshalError` text, never the server-supplied
message. -/
theorem C2_merge_three_way {α : Type} (decodeCommit : String → Except String α)
    (statusLine body : String) :
    (∀ c, decodeCommit body = .ok c →
      mergeRespond decodeCommit 201 statusLine body = (some c, none)) ∧
    mergeRespond decodeCommit 204 statusLine body = (none, none) ∧
    mergeRespond decodeCommit 409 statusLine "\x7b\"message\":\"Merge conflict\"\x7d" =
      (none, some nonPointerUnmarshalError) ∧
    nonPointerUnmarshalError ≠ "Merge conflict" := by
  refine ⟨?_, rfl, rfl, by decide⟩
  intro c hc
  simp [mergeRespond, hc]

/-- Witness for C2 with a stub decoder that accepts the stubbed 201
body. -/
theorem C2_merge_three_way_witness :
    mergeRespond (fun _ => Except.ok 7) 201 "201 Created" "body" = (some 7, none) ∧
    mergeRespond (fun _ => Except.ok 7) 204 "204 No Content" "" = (none, none) ∧
    mergeRespond (fun _ => Except.ok 7) 409 "409 Conflict"
      "\x7b\"message\":\"Merge conflict\"\x7d" = (none, some nonPointerUnmarshalError) :=
  ⟨(C2_merge_three_way (fun _ => Except.ok 7) "201 Created" "body").1 7 rfl,
   (C2_merge_three_way (fun _ => Except.ok 7) "204 No Content" "").2.1,
   (C2_merge_three_way (fun _ => Except.ok 7) "409 Conflict" "").2.2.1⟩

/-- Claim C9: the hand-built JSON bodies splice field values into a
template without escaping.  A non-blank comment containing quotes makes
`CreateIssueComment` emit exactly the serialization of a JSON object
with an extra `"injected"` field, and likewise for the key value of
`CreateRepoKey`; all spliced fragments are quote- and control-free, so
the serialization is honest JSON. -/
theorem C9_handbuilt_json_injection :
    (goTrimSpace "a\", \"injected\": \"x" ≠ "" ∧
      '"' ∈ ("a\", \"injected\": \"x").data ∧
      createIssueCommentBody "a\", \"injected\": \"x" =
        some (jsonObject [("body", "a"), ("injected", "x")]) ∧
      "injected" ∉ ["body"]) ∧
    (createRepoKeyBody [("key", "k\", \"injected\": \"evil"), ("title", "t")] =
        jsonObject [("key", "k"), ("injected", "evil"), ("title", "t")] ∧
      "injected" ∉ ["key", "title"]) ∧
    (jsonPlain "body" && jsonPlain "a" && jsonPlain "injected" && jsonPlain "x" &&
      jsonPlain "key" && jsonPlain "k" && jsonPlain "evil" &&
      jsonPlain "title" && jsonPlain "t") = true := by
  refine ⟨⟨?_, ?_, ?_, ?_⟩, ⟨?_, ?_⟩, ?_⟩ <;> decide

/-- Claim C8: in `ListIssueComments` the owner segment is interpolated
from `urlData[""]` instead of `urlData["owner"]`, so whenever the map
has no entry at the empty-string key the built path has an empty owner
segment, even when `"owner"` is present and non-blank. -/
theorem C8_listIssueComments_empty_owner_segment (login : String) (m : GoMap)
    (h : List.lookup "" m = none) :
    listIssueCommentsPrepare login m =
      .request ("/repos//" ++ mapGet m "repo" ++ "/issues/" ++
        mapGet m "number" ++ "/comments") := by
  have hempty : ∀ m2 : GoMap, List.lookup "" m2 = none → mapGet m2 "" = "" := by
    intro m2 h2
    simp [mapGet, h2]
  by_cases howner : assertMapString "owner" m
  · simp only [listIssueCommentsPrepare, assertMapStrings_true, howner, Bool.not_true,
      if_false, Bool.false_eq_true, if_true, hempty m h]
    exact congrArg Prepared.request (by simp)
  · simp only [listIssueCommentsPrepare, assertMapStrings_true, howner, Bool.not_false,
      if_true, Bool.false_eq_true, if_false]
    have hset : ∀ key, key ≠ "owner" → mapGet (mapSet m "owner" login) key = mapGet m key := by
      intro key hkey
      have hbeq : (key == "owner") = false := beq_eq_false_iff_ne.mpr hkey
      simp [mapGet, mapSet, List.lookup, hbeq]
    rw [hset "" (by decide), hset "repo" (by decide), hset "number" (by decide),
      hempty m h]
    exact congrArg Prepared.request (by simp)

/-- Witness for C8: a map binding a non-blank `"owner"` but nothing at
the empty-string key still yields the empty owner segment. -/
theorem C8_listIssueComments_empty_owner_segment_witness :
    listIssueCommentsPrepare "login" [("owner", "alice"), ("repo", "r"), ("number", "7")] =
      .request ("/repos//" ++
        mapGet [("owner", "alice"), ("repo", "r"), ("number", "7")] "repo" ++ "/issues/" ++
        mapGet [("owner", "alice"), ("repo", "r"), ("number", "7")] "number" ++ "/comments") :=
  C8_listIssueComments_empty_owner_segment "login"
    [("owner", "alice"), ("repo", "r"), ("number", "7")] (by decide)

/-- Claim C5: for every token and path, `createUrl` is the base API URL
followed by the path verbatim, one separator — `?` when the path
contains no `?` (byte 63) and `&` otherwise — and a single
`access_token=` parameter carrying the percent-encoded token. -/
theorem C5_createUrl_structure (token path : Str) :
    createUrl token path =
      apiUrlBytes ++ path ++
        (if List.contains path 63 then bytes "&" else bytes "?") ++
        bytes "access_token=" ++ queryEscape token := by
  have hamp : bytes "&" ++ bytes "access_token=" = bytes "&access_token=" := by decide
  have hq : bytes "?" ++ bytes "access_token=" = bytes "?access_token=" := by decide
  by_cases h : 63 ∈ path <;>
    simp [createUrl, h, ← hamp, ← hq, List.append_assoc]

/-! ### Lemmas for the query-encoder round trip (claim C7) -/

lemma isUnreserved_ne_special {b : Nat} (h : isUnreserved b = true) :
    b ≠ 32 ∧ b ≠ 37 ∧ b ≠ 38 ∧ b ≠ 43 ∧ b ≠ 61 := by
  simp [isUnreserved] at h
  omega

lemma hexVal_hexDigitU {n : Nat} (h : n < 16) : hexVal (hexDigitU n) = some n := by
  interval_cases n <;> decide

lemma hexDigitU_ne (n : Nat) : hexDigitU n ≠ 38 ∧ hexDigitU n ≠ 61 := by
  unfold hexDigitU
  split <;> omega

lemma mem_escapeByte_ne {b c : Nat} (hc : c ∈ escapeByte b) : c ≠ 38 ∧ c ≠ 61 := by
  unfold escapeByte at hc
  split_ifs at hc with h32 hun
  · simp at hc
    omega
  · simp at hc
    subst hc
    have h5 := isUnreserved_ne_special hun
    exact ⟨h5.2.2.1, h5.2.2.2.2⟩
  · simp at hc
    rcases hc with rfl | rfl | rfl
    · omega
    · exact hexDigitU_ne _
    · exact hexDigitU_ne _

lemma mem_queryEscape_ne {s : Str} {c : Nat} (hc : c ∈ queryEscape s) :
    c ≠ 38 ∧ c ≠ 61 := by
  unfold queryEscape at hc
  rw [List.mem_flatten] at hc
  obtain ⟨l, hl, hcl⟩ := hc
  rw [List.mem_map] at hl
  obtain ⟨b, _, rfl⟩ := hl
  exact mem_escapeByte_ne hcl

lemma queryEscape_nil : queryEscape [] = [] := rfl

lemma queryEscape_cons (b : Nat) (s : Str) :
    queryEscape (b :: s) = escapeByte b ++ queryEscape s := rfl

lemma queryUnescape_nil : queryUnescape [] = some [] := by
  rw [queryUnescape.eq_def]

lemma queryUnescape_cons_plus (rest : Str) :
    queryUnescape (43 :: rest) = (queryUnescape rest).map (fun u => 32 :: u) := by
  rw [queryUnescape.eq_def]
  simp

lemma queryUnescape_cons_other {b : Nat} (hb43 : b ≠ 43) (hb37 : b ≠ 37) (rest : Str) :
    queryUnescape (b :: rest) = (queryUnescape rest).map (fun u => b :: u) := by
  rw [queryUnescape.eq_def]
  simp [hb43, hb37]

lemma queryUnescape_cons_pct {c1 c2 h1 h2 : Nat} (hc1 : hexVal c1 = some h1)
    (hc2 : hexVal c2 = some h2) (rest : Str) :
    queryUnescape (37 :: c1 :: c2 :: rest) =
      (queryUnescape rest).map (fun u => (16 * h1 + h2) :: u) := by
  rw [queryUnescape.eq_def]
  simp [hc1, hc2]

lemma queryUnescape_queryEscape_append (s t : Str) (hs : ∀ b ∈ s, b < 256) :
    queryUnescape (queryEscape s ++ t) =
      (queryUnescape t).map (fun u => s ++ u) := by
  induction s with
  | nil =>
    simp [queryEscape_nil]
  | cons b s ih =>
    have hb : b < 256 := hs b (List.mem_cons_self _ _)
    have hs2 : ∀ x ∈ s, x < 256 := fun x hx => hs x (List.mem_cons_of_mem _ hx)
    rw [queryEscape_cons, List.append_assoc]
    unfold escapeByte
    split_ifs with h32 hun
    · have hb32 : b = 32 := by simpa using h32
      subst hb32
      rw [List.singleton_append, queryUnescape_cons_plus, ih hs2, Option.map_map]
      rfl
    · have h5 := isUnreserved_ne_special hun
      rw [List.singleton_append, queryUnescape_cons_other h5.2.2.2.1 h5.2.1,
        ih hs2, Option.map_map]
      rfl
    · have hdiv : b / 16 < 16 := by omega
      have hmod : b % 16 < 16 := by omega
      simp only [List.cons_append, List.nil_append]
      rw [queryUnescape_cons_pct (hexVal_hexDigitU hdiv) (hexVal_hexDigitU hmod),
        ih hs2, Option.map_map]
      have hbyte : 16 * (b / 16) + b % 16 = b := by omega
      rw [hbyte]
      rfl

lemma queryUnescape_queryEscape (s : Str) (hs : ∀ b ∈ s, b < 256) :
    queryUnescape (queryEscape s) = some s := by
  have h := queryUnescape_queryEscape_append s [] hs
  rw [List.append_nil] at h
  rw [h, queryUnescape_nil]
  simp

lemma mem_trimB {s : Str} {b : Nat} (hb : b ∈ trimB s) : b ∈ s := by
  unfold trimB at hb
  rw [List.mem_reverse] at hb
  have h2 := (List.dropWhile_sublist _).subset hb
  rw [List.mem_reverse] at h2
  exact (List.dropWhile_sublist _).subset h2

lemma takeWhile_append_eq (x y : Str) (hx : ∀ c ∈ x, c ≠ 61) :
    (x ++ 61 :: y).takeWhile (fun c => c != 61) = x := by
  induction x with
  | nil => simp [List.takeWhile]
  | cons a x ih =>
    have ha : (a != 61) = true := by
      simpa using hx a (List.mem_cons_self _ _)
    simp only [List.cons_append, List.takeWhile_cons, ha, if_true]
    rw [ih (fun c hc => hx c (List.mem_cons_of_mem _ hc))]

lemma dropWhile_append_eq (x y : Str) (hx : ∀ c ∈ x, c ≠ 61) :
    (x ++ 61 :: y).dropWhile (fun c => c != 61) = 61 :: y := by
  induction x with
  | nil => simp [List.dropWhile]
  | cons a x ih =>
    have ha : (a != 61) = true := by
      simpa using hx a (List.mem_cons_self _ _)
    simp only [List.cons_append, List.dropWhile_cons, ha, if_true]
    exact ih (fun c hc => hx c (List.mem_cons_of_mem _ hc))

lemma parsePair_encPair (p : Str × Str) (h1 : byteOk p.1) (h2 : byteOk p.2) :
    parsePair (encPair p) = some (trimB p.1, trimB p.2) := by
  obtain ⟨k, v⟩ := p
  have hk61 : ∀ c ∈ queryEscape (trimB k), c ≠ 61 :=
    fun c hc => (mem_queryEscape_ne hc).2
  have hk : ∀ b ∈ trimB k, b < 256 := fun b hb => h1 b (mem_trimB hb)
  have hv : ∀ b ∈ trimB v, b < 256 := fun b hb => h2 b (mem_trimB hb)
  simp only [parsePair, encPair, takeWhile_append_eq _ _ hk61,
    dropWhile_append_eq _ _ hk61, queryUnescape_queryEscape _ hk,
    queryUnescape_queryEscape _ hv]

lemma encPair_ne_nil (p : Str × Str) : encPair p ≠ [] := by
  unfold encPair
  simp

lemma mem_encPair_ne_amp {p : Str × Str} {c : Nat} (hc : c ∈ encPair p) : c ≠ 38 := by
  unfold encPair at hc
  rw [List.mem_append] at hc
  rcases hc with hc | hc
  · exact (mem_queryEscape_ne hc).1
  · rcases List.mem_cons.mp hc with rfl | hc
    · omega
    · exact (mem_queryEscape_ne hc).1

lemma splitAmp_eq_single (s : Str) (h : ∀ c ∈ s, c ≠ 38) : splitAmp s = [s] := by
  induction s with
  | nil => rfl
  | cons b rest ih =>
    have hb : b ≠ 38 := h b (List.mem_cons_self _ _)
    simp only [splitAmp, if_neg hb]
    rw [ih (fun c hc => h c (List.mem_cons_of_mem _ hc))]

lemma splitAmp_append_cons (x rest : Str) (hx : ∀ c ∈ x, c ≠ 38) :
    splitAmp (x ++ 38 :: rest) = x :: splitAmp rest := by
  induction x with
  | nil => simp [splitAmp]
  | cons a x ih =>
    have ha : a ≠ 38 := hx a (List.mem_cons_self _ _)
    simp only [List.cons_append, splitAmp, if_neg ha, List.append_eq]
    rw [ih (fun c hc => hx c (List.mem_cons_of_mem _ hc))]

lemma urlDataConvertAux_of_ne_nil (l : List (Str × Str)) (acc : Str) (h : acc ≠ []) :
    urlDataConvertAux acc l = acc ++ encTail l := by
  induction l generalizing acc with
  | nil => simp [urlDataConvertAux, encTail]
  | cons p r ih =>
    have hlen : (List.length acc == 0) = false := by
      rw [beq_eq_false_iff_ne]
      simpa [Ne, List.length_eq_zero] using h
    simp only [urlDataConvertAux, hlen, Bool.false_eq_true, if_false]
    rw [ih _ (by simp), encTail]
    simp [List.append_assoc]

lemma urlDataConvert_cons (p : Str × Str) (r : List (Str × Str)) :
    urlDataConvert (p :: r) = encPair p ++ encTail r := by
  unfold urlDataConvert
  simp only [urlDataConvertAux, List.length_nil, Nat.zero_eq, beq_self_eq_true,
    if_true, List.nil_append]
  exact urlDataConvertAux_of_ne_nil r _ (encPair_ne_nil p)

lemma splitAmp_encPair_encTail (p : Str × Str) (r : List (Str × Str)) :
    splitAmp (encPair p ++ encTail r) = encPair p :: List.map encPair r := by
  induction r generalizing p with
  | nil =>
    rw [encTail, List.append_nil, List.map_nil]
    exact splitAmp_eq_single _ (fun c hc => mem_encPair_ne_amp hc)
  | cons q r ih =>
    rw [encTail, List.map_cons, List.cons_append]
    have hsplit := splitAmp_append_cons (encPair p) (encPair q ++ encTail r)
      (fun c hc => mem_encPair_ne_amp hc)
    rw [hsplit, ih q]

lemma parseAll_map_encPair (l : List (Str × Str))
    (h : ∀ p ∈ l, parsePair (encPair p) = some (trimB p.1, trimB p.2)) :
    parseAll parsePair (List.map encPair l) =
      some (List.map (fun p => (trimB p.1, trimB p.2)) l) := by
  induction l with
  | nil => rfl
  | cons p r ih =>
    rw [List.map_cons]
    simp only [parseAll, h p (List.mem_cons_self _ _),
      ih (fun q hq => h q (List.mem_cons_of_mem _ hq)), List.map_cons]

/-- Claim C7 counterexample: decoding the encoding of a mapping whose
key carries surrounding whitespace yields the trimmed key, not the
original key, so the claimed round trip to the original
(key, trimmed-value) pairs fails. -/
theorem C7_roundtrip_counterexample :
    decodeQuery (urlDataConvert [(bytes " a ", bytes "b")]) =
      some [(bytes "a", bytes "b")] ∧
    decodeQuery (urlDataConvert [(bytes " a ", bytes "b")]) ≠
      some [(bytes " a ", bytes "b")] := by
  decide

/-- Claim C7 (amended): for any mapping, decoding the produced query
string with the standard query-string parser yields the
(trimmed-key, trimmed-value) pairs, in the encoding order — hence
independent of which order the unordered map is enumerated in — and the
empty mapping yields the empty string. -/
theorem C7_urlDataConvert_roundtrip (l : List (Str × Str))
    (h : ∀ p ∈ l, byteOk p.1 ∧ byteOk p.2) :
    decodeQuery (urlDataConvert l) =
      some (List.map (fun p => (trimB p.1, trimB p.2)) l) ∧
    urlDataConvert [] = [] := by
  refine ⟨?_, rfl⟩
  cases l with
  | nil => rfl
  | cons p r =>
    rw [urlDataConvert_cons]
    unfold decodeQuery
    rw [if_neg (fun hAbs => encPair_ne_nil p (List.append_eq_nil.mp hAbs).1),
      splitAmp_encPair_encTail]
    have hall : ∀ q ∈ p :: r, parsePair (encPair q) = some (trimB q.1, trimB q.2) :=
      fun q hq => parsePair_encPair q (h q hq).1 (h q hq).2
    have hmap := parseAll_map_encPair (p :: r) hall
    rw [List.map_cons] at hmap
    exact hmap

/-- Witness for C7 on a concrete two-pair mapping with whitespace and a
reserved character in the values. -/
theorem C7_urlDataConvert_roundtrip_witness :
    decodeQuery (urlDataConvert [(bytes " a ", bytes "b c"), (bytes "k", bytes "v&x")]) =
      some [(trimB (bytes " a "), trimB (bytes "b c")),
        (trimB (bytes "k"), trimB (bytes "v&x"))] :=
  (C7_urlDataConvert_roundtrip
    [(bytes " a ", bytes "b c"), (bytes "k", bytes "v&x")] (by decide)).1

end GithubClient
